import Mathlib

/-!
# Verification of the OAuth2 token lifecycle manager

Shallow embedding of `mcp/token_manager.py` (class `TokenManager`) from the
`tradeBlotterQuery-murex-demo` application.

Modelling decisions:

* Wall-clock instants and durations are integers counting seconds; Python's
  `datetime`/`timedelta` arithmetic and comparisons become `ℤ` arithmetic
  (the JWT `exp` claim is an integral number of seconds since the epoch).
* The HTTP layer (`httpx.AsyncClient`) is an oracle `Net` fixing the response
  of each of the three POSTs the code can make (authorize, code-for-token,
  refresh).  `raise_for_status` on a non-2xx response, a transport failure and
  an unparseable JSON body all become an `Except.error`.  Posting on a closed
  client raises in `httpx` before any I/O happens, and posting on a `None`
  client raises an `AttributeError`; both are modelled as errors that emit no
  network event.
* `base64.urlsafe_b64decode` followed by `json.loads` and the `exp` claim
  lookup (external library calls) are an oracle `decode : String → Option ℤ`;
  `none` covers a decode/parse failure as well as a missing `exp` claim, both
  of which the source swallows identically.
* Every operation returns its result, the successor state and a trace of
  `Event`s: each network round trip and each write to the token pair, the
  latter tagged with whether the manager's `asyncio.Lock` was held at the
  write.  The lock itself is modelled by its effect: critical sections of
  concurrent callers execute serialized, one after the other, and the code
  executed under the lock is invoked with the `locked` flag set.
* Python truthiness of an `Optional[str]` (`if not self.access_token: ...`)
  is `truthy`: `None` and the empty string are falsy.
-/

/-- Constructor arguments of `TokenManager.__init__` (immutable credentials). -/
structure Credentials where
  username : String
  password : String
  group : String
  fo_desk : String
  load_balancer_url : String
  verify_ssl : Bool
  deriving Repr, DecidableEq

/-- `TOKEN_REFRESH_THRESHOLD_MINUTES = 15` from the source. -/
def TOKEN_REFRESH_THRESHOLD_MINUTES : ℤ := 15

/-- The three POST requests the manager can issue. -/
inductive NetCall where
  /-- `POST {base}/v1/api/auth/authorize` with basic auth. -/
  | authorize : NetCall
  /-- `POST {base}/v1/api/auth/token`, grant type `authorization_code`. -/
  | token : NetCall
  /-- `POST {base}/v1/api/auth/token`, grant type `refresh_token`. -/
  | refresh : NetCall
  deriving Repr, DecidableEq

/-- Trace events: a network round trip, or a write to the token pair tagged
with whether the manager's lock was held at the write. -/
inductive Event where
  | net : NetCall → Event
  | mutate : Bool → Event
  deriving Repr, DecidableEq

/-- Errors an operation can raise. -/
inductive Err where
  /-- `response.raise_for_status()` on a non-2xx response. -/
  | status : Nat → Err
  /-- transport-level failure of a request. -/
  | network : Err
  /-- `response.json()` failed to parse. -/
  | badJson : Err
  /-- `httpx` raises when posting on a closed client (before any I/O). -/
  | closedClient : Err
  /-- `AttributeError`: `self._client` is `None`. -/
  | noClient : Err
  /-- `RuntimeError("Failed to get authorization code")`. -/
  | noAuthCode : Err
  /-- `RuntimeError("Failed to obtain valid access token")`. -/
  | noToken : Err
  deriving Repr, DecidableEq

/-- Body of a successful token-endpoint JSON response; `data.get(...)` may
return `None` for either field. -/
structure TokenData where
  access_token : Option String
  refresh_token : Option String
  deriving Repr, DecidableEq

/-- Network oracle: the outcome of each POST the code can make. -/
structure Net where
  /-- outcome of the authorize POST: the raw response text (the code). -/
  authorizeRes : Except Err String
  /-- outcome of the code-for-token POST. -/
  tokenRes : Except Err TokenData
  /-- outcome of the refresh POST. -/
  refreshRes : Except Err TokenData

/-- Status of the `httpx.AsyncClient` stored in `self._client`. -/
inductive ClientStatus where
  | opened : ClientStatus
  | closed : ClientStatus
  deriving Repr, DecidableEq

/-- Status of the background task stored in `self._refresh_task`. -/
inductive TaskStatus where
  | running : TaskStatus
  | cancelled : TaskStatus
  deriving Repr, DecidableEq

/-- Mutable state of a `TokenManager` instance. -/
structure TokenManager where
  creds : Credentials
  access_token : Option String
  refresh_token : Option String
  token_expiration : Option ℤ
  refresh_task : Option TaskStatus
  client : Option ClientStatus
  deriving Repr, DecidableEq

/-- `TokenManager.__init__`: stores the credentials, all dynamic fields start
out `None`. -/
def mkTokenManager (creds : Credentials) : TokenManager :=
  { creds := creds
    access_token := none
    refresh_token := none
    token_expiration := none
    refresh_task := none
    client := none }

/-- Python truthiness of an `Optional[str]`: `None` and `""` are falsy. -/
def truthy : Option String → Bool
  | none => false
  | some s => !s.data.isEmpty

/-- The network calls appearing in a trace, in order. -/
def netEvents : List Event → List NetCall
  | [] => []
  | Event.net c :: es => c :: netEvents es
  | Event.mutate _ :: es => netEvents es

/-- Whether a network call hits the token endpoint (a token exchange). -/
def isExchange : NetCall → Bool
  | NetCall.authorize => false
  | NetCall.token => true
  | NetCall.refresh => true

/-- Number of token-endpoint round trips in a trace. -/
def exchangeCount (tr : List Event) : Nat :=
  (List.filter isExchange (netEvents tr)).length

/-- All token-pair writes in the trace happened with lock status `L`. -/
def mutatesOnlyWith (L : Bool) (tr : List Event) : Bool :=
  List.all tr (fun e =>
    match e with
    | Event.net _ => true
    | Event.mutate b => b == L)

/-- One POST on `self._client`: a `None` client raises `AttributeError`, a
closed client makes `httpx` raise before any I/O (no network event); an open
client performs one round trip whose outcome the oracle fixes. -/
def postCall (s : TokenManager) (c : NetCall) (res : Except Err α) :
    Except Err α × List Event :=
  match s.client with
  | none => (Except.error Err.noClient, [])
  | some ClientStatus.closed => (Except.error Err.closedClient, [])
  | some ClientStatus.opened => (res, [Event.net c])

/-- `TokenManager._is_token_expiring_soon`: unknown expiration counts as
expiring; otherwise compare the remaining lifetime against the threshold. -/
def is_token_expiring_soon (s : TokenManager) (now : ℤ) : Bool :=
  match s.token_expiration with
  | none => true
  | some e => decide (e - now ≤ TOKEN_REFRESH_THRESHOLD_MINUTES * 60)

/-- The base64url padding correction in `_parse_token_expiration`:
`padding = 4 - len(payload) % 4; if padding != 4: payload += "=" * padding`. -/
def padB64 (payload : String) : String :=
  let padding := 4 - payload.length % 4
  if padding ≠ 4 then payload ++ String.mk (List.replicate padding '=') else payload

/-- `TokenManager._parse_token_expiration`: skip a falsy token; split on `"."`
and skip silently unless there are exactly three segments; base64url-decode the
padded payload and read the `exp` claim (the `decode` oracle, `none` on any
failure or a missing claim); only then write `token_expiration`.  Every failure
path leaves the state untouched — the field is never cleared. -/
def parse_token_expiration (decode : String → Option ℤ) (locked : Bool)
    (token : Option String) (s : TokenManager) : TokenManager × List Event :=
  if !truthy token then (s, [])
  else
    let parts := (token.getD "").data.splitOn '.'
    if parts.length ≠ 3 then (s, [])
    else
      match decode (padB64 (String.mk (parts.getD 1 []))) with
      | none => (s, [])
      | some e => ({ s with token_expiration := some e }, [Event.mutate locked])

/-- `TokenManager._get_authorization_code`: one authorize POST; the raw
response text is the code; any error propagates. -/
def get_authorization_code (net : Net) (s : TokenManager) :
    Except Err String × List Event :=
  postCall s NetCall.authorize net.authorizeRes

/-- `TokenManager._get_access_token`: one code-for-token POST; on success store
`access_token` and `refresh_token` from the JSON body and parse the new
token's expiration; any error propagates with the state unchanged. -/
def get_access_token (net : Net) (decode : String → Option ℤ) (locked : Bool)
    (s : TokenManager) : Except Err Unit × TokenManager × List Event :=
  match postCall s NetCall.token net.tokenRes with
  | (Except.error e, ev) => (Except.error e, s, ev)
  | (Except.ok d, ev) =>
    let s1 := { s with access_token := d.access_token,
                       refresh_token := d.refresh_token }
    let p := parse_token_expiration decode locked d.access_token s1
    (Except.ok (), p.1, ev ++ [Event.mutate locked] ++ p.2)

/-- `TokenManager._obtain_token`: get an authorization code (a falsy code is a
`RuntimeError`), then exchange it for tokens. -/
def obtain_token (net : Net) (decode : String → Option ℤ) (locked : Bool)
    (s : TokenManager) : Except Err Unit × TokenManager × List Event :=
  match get_authorization_code net s with
  | (Except.error e, ev) => (Except.error e, s, ev)
  | (Except.ok code, ev) =>
    if code.data.isEmpty then (Except.error Err.noAuthCode, s, ev)
    else
      let r := get_access_token net decode locked s
      (r.1, r.2.1, ev ++ r.2.2)

/-- `TokenManager._refresh_token`: with no (truthy) refresh token fall back to
the full `_obtain_token` flow; otherwise one refresh POST, storing the new
pair and parsing its expiration on success; any error propagates with the
state unchanged. -/
def refresh_token_op (net : Net) (decode : String → Option ℤ) (locked : Bool)
    (s : TokenManager) : Except Err Unit × TokenManager × List Event :=
  if !truthy s.refresh_token then obtain_token net decode locked s
  else
    match postCall s NetCall.refresh net.refreshRes with
    | (Except.error e, ev) => (Except.error e, s, ev)
    | (Except.ok d, ev) =>
      let s1 := { s with access_token := d.access_token,
                         refresh_token := d.refresh_token }
      let p := parse_token_expiration decode locked d.access_token s1
      (Except.ok (), p.1, ev ++ [Event.mutate locked] ++ p.2)

/-- `TokenManager.get_valid_token`: under the lock, return the stored token if
it is truthy and not expiring soon; otherwise refresh (errors propagate), then
raise `RuntimeError` if the access token is still falsy, else return it. -/
def get_valid_token (net : Net) (decode : String → Option ℤ) (now : ℤ)
    (s : TokenManager) : Except Err String × TokenManager × List Event :=
  if truthy s.access_token && !is_token_expiring_soon s now then
    (Except.ok (s.access_token.getD ""), s, [])
  else
    match refresh_token_op net decode true s with
    | (Except.error e, s1, ev) => (Except.error e, s1, ev)
    | (Except.ok _, s1, ev) =>
      if !truthy s1.access_token then (Except.error Err.noToken, s1, ev)
      else (Except.ok (s1.access_token.getD ""), s1, ev)

/-- `TokenManager.refresh_immediately`: under the lock, force a refresh
regardless of the expiration state; errors propagate. -/
def refresh_immediately (net : Net) (decode : String → Option ℤ)
    (s : TokenManager) : Except Err Unit × TokenManager × List Event :=
  refresh_token_op net decode true s

/-- `TokenManager.initialize`: open the HTTP client, `_obtain_token` (without
acquiring the lock — errors propagate with the task not started), then start
the background refresh task. -/
def initTokenManager (net : Net) (decode : String → Option ℤ)
    (s : TokenManager) : Except Err Unit × TokenManager × List Event :=
  let s0 := { s with client := some ClientStatus.opened }
  match obtain_token net decode false s0 with
  | (Except.error e, s1, ev) => (Except.error e, s1, ev)
  | (Except.ok _, s1, ev) =>
    (Except.ok (), { s1 with refresh_task := some TaskStatus.running }, ev)

/-- `TokenManager.shutdown`: if a background task exists, cancel it and await
it, treating `CancelledError` as expected; if a client exists, close it
(`aclose` on a closed client is a no-op).  Neither handle is cleared, no
network exchange is made. -/
def shutdown (s : TokenManager) : TokenManager × List Event :=
  let s1 :=
    match s.refresh_task with
    | none => s
    | some _ => { s with refresh_task := some TaskStatus.cancelled }
  let s2 :=
    match s1.client with
    | none => s1
    | some _ => { s1 with client := some ClientStatus.closed }
  (s2, [])

/-- One iteration of the body of `TokenManager._refresh_loop`: if the token is
expiring soon, refresh under the lock, swallowing any error. -/
def refresh_loop_iter (net : Net) (decode : String → Option ℤ) (now : ℤ)
    (s : TokenManager) : TokenManager × List Event :=
  if is_token_expiring_soon s now then
    let r := refresh_token_op net decode true s
    (r.2.1, r.2.2)
  else (s, [])

/-- `n` callers of `get_valid_token`, serialized by the manager's lock: the
lock admits them one at a time, so the concurrent execution is the sequential
composition of their critical sections. -/
def runCallers (net : Net) (decode : String → Option ℤ) (now : ℤ) :
    Nat → TokenManager → List (Except Err String) × TokenManager × List Event
  | 0, s => ([], s, [])
  | n + 1, s =>
    let r1 := get_valid_token net decode now s
    let rs := runCallers net decode now n r1.2.1
    (r1.1 :: rs.1, rs.2.1, r1.2.2 ++ rs.2.2)

/-! ## Concrete fixtures used by witnesses and counterexamples -/

/-- Example credentials (shape of the values is irrelevant to the dynamics). -/
def exCreds : Credentials :=
  ⟨"MUREXFO", "pw", "FO_ITF", "FOD", "https://lb", false⟩

/-- A network oracle on which every request succeeds; both token responses
carry a well-formed three-segment token. -/
def exNet : Net :=
  { authorizeRes := Except.ok "code"
    tokenRes := Except.ok ⟨some "h.p.s", some "r"⟩
    refreshRes := Except.ok ⟨some "h.q.s", some "r2"⟩ }

/-- A network oracle whose authorize call answers HTTP 500 and whose refresh
call fails at transport level. -/
def exNetFail : Net :=
  { authorizeRes := Except.error (Err.status 500)
    tokenRes := Except.error (Err.status 500)
    refreshRes := Except.error Err.network }

/-- A decode oracle: every payload decodes to the `exp` claim `5000`. -/
def exDecode : String → Option ℤ := fun _ => some 5000

/-- A manager state as left by a successful startup: a stored token pair, a
known expiration, a running background task and an open client. -/
def exLive : TokenManager :=
  { mkTokenManager exCreds with
      access_token := some "tok"
      refresh_token := some "r0"
      token_expiration := some 2000
      refresh_task := some TaskStatus.running
      client := some ClientStatus.opened }

/-- The live manager at a moment when its token is inside the 15-minute
refresh threshold (expiring at `100`, observed at time `0`). -/
def exExpiring : TokenManager := { exLive with token_expiration := some 100 }

/-! ## Helper lemmas -/

/-- On an error result, `get_access_token` left the state untouched. -/
theorem get_access_token_error_state (net : Net) (decode : String → Option ℤ)
    (locked : Bool) (s : TokenManager) (e : Err)
    (h : (get_access_token net decode locked s).1 = Except.error e) :
    (get_access_token net decode locked s).2.1 = s := by
  unfold get_access_token postCall at h ⊢
  cases hc : s.client with
  | none => simp [hc] at h ⊢
  | some st =>
    cases st with
    | closed => simp [hc] at h ⊢
    | opened =>
      cases ht : net.tokenRes with
      | error e2 => simp [hc, ht] at h ⊢
      | ok d => simp [hc, ht] at h

/-- On an error result, `obtain_token` left the state untouched. -/
theorem obtain_token_error_state (net : Net) (decode : String → Option ℤ)
    (locked : Bool) (s : TokenManager) (e : Err)
    (h : (obtain_token net decode locked s).1 = Except.error e) :
    (obtain_token net decode locked s).2.1 = s := by
  unfold obtain_token get_authorization_code postCall at h ⊢
  cases hc : s.client with
  | none => simp [hc] at h ⊢
  | some st =>
    cases st with
    | closed => simp [hc] at h ⊢
    | opened =>
      cases ha : net.authorizeRes with
      | error e2 => simp [hc, ha] at h ⊢
      | ok c =>
        cases hcode : c.data.isEmpty with
        | true => simp [hc, ha, hcode] at h ⊢
        | false =>
          simp only [hc, ha, hcode] at h ⊢
          simp only [Bool.false_eq_true, if_false]
          exact get_access_token_error_state net decode locked s e h

/-- On an error result, `refresh_token_op` left the state untouched. -/
theorem refresh_token_op_error_state (net : Net) (decode : String → Option ℤ)
    (locked : Bool) (s : TokenManager) (e : Err)
    (h : (refresh_token_op net decode locked s).1 = Except.error e) :
    (refresh_token_op net decode locked s).2.1 = s := by
  unfold refresh_token_op at h ⊢
  cases hr : (!truthy s.refresh_token) with
  | true =>
    simp only [hr, if_true] at h ⊢
    exact obtain_token_error_state net decode locked s e h
  | false =>
    simp only [hr, Bool.false_eq_true, if_false] at h ⊢
    unfold postCall at h ⊢
    cases hc : s.client with
    | none => simp [hc] at h ⊢
    | some st =>
      cases st with
      | closed => simp [hc] at h ⊢
      | opened =>
        cases ht : net.refreshRes with
        | error e2 => simp [hc, ht] at h ⊢
        | ok d => simp [hc, ht] at h

/-- Claim C10: atomicity of a failed exchange.  Whenever a refresh or obtain
operation raises (non-2xx status, network failure, unparseable JSON, falsy
authorization code, or an unusable client), the manager's access token,
refresh token and expiration instant are all exactly as they were before the
operation: every write in the source happens only after `raise_for_status`
and `response.json()` have succeeded. -/
theorem failed_exchange_preserves_token_pair (net : Net)
    (decode : String → Option ℤ) (locked : Bool) (s : TokenManager) (e : Err) :
    ((refresh_token_op net decode locked s).1 = Except.error e →
      (refresh_token_op net decode locked s).2.1 = s) ∧
    ((obtain_token net decode locked s).1 = Except.error e →
      (obtain_token net decode locked s).2.1 = s) :=
  ⟨refresh_token_op_error_state net decode locked s e,
   obtain_token_error_state net decode locked s e⟩

/-- Witness for C10: on a concrete live state whose refresh exchange fails at
transport level, the state after the failed refresh is exactly the old one. -/
theorem failed_exchange_preserves_token_pair_witness :
    (refresh_token_op exNetFail exDecode true exLive).1 =
        Except.error Err.network ∧
    (refresh_token_op exNetFail exDecode true exLive).2.1 = exLive :=
  ⟨rfl, (failed_exchange_preserves_token_pair exNetFail exDecode true exLive
      Err.network).1 rfl⟩

/-- Claim C6: `shutdown` is idempotent.  Running `shutdown` on the state left
by a first `shutdown` returns that state unchanged, and neither run emits any
network event: cancelling an already-cancelled task and closing an
already-closed `httpx` client are no-ops, and nothing in `shutdown` touches
the network. -/
theorem shutdown_idempotent (s : TokenManager) :
    shutdown (shutdown s).1 = shutdown s ∧ (shutdown s).2 = [] := by
  obtain ⟨c, a, r, x, t, cl⟩ := s
  cases t <;> cases cl <;> exact ⟨rfl, rfl⟩

/-- Claim C3: with no (truthy) refresh token held, any refresh attempt —
`get_valid_token`, `refresh_immediately` and the background loop all funnel
into `_refresh_token` — performs the full authorization-code-then-token flow
(`_obtain_token`) instead of the refresh-token exchange, and the absence of
the refresh token itself causes no error: with an open client, a successful
authorize answering a non-empty code and a successful token exchange, the
attempt succeeds. -/
theorem missing_refresh_token_falls_back (net : Net)
    (decode : String → Option ℤ) (locked : Bool) (s : TokenManager)
    (h : truthy s.refresh_token = false) :
    refresh_token_op net decode locked s = obtain_token net decode locked s ∧
    (∀ c d, s.client = some ClientStatus.opened →
      net.authorizeRes = Except.ok c → c.data.isEmpty = false →
      net.tokenRes = Except.ok d →
      (refresh_token_op net decode locked s).1 = Except.ok ()) := by
  have heq : refresh_token_op net decode locked s =
      obtain_token net decode locked s := by
    unfold refresh_token_op
    simp [h]
  refine ⟨heq, ?_⟩
  intro c d hc ha hcode ht
  rw [heq]
  unfold obtain_token get_authorization_code postCall
  unfold get_access_token postCall
  simp [hc, ha, hcode, ht]

/-- Witness for C3: a freshly constructed manager with an open client and no
refresh token obtains a token via the full flow without error; the trace shows
the authorize round trip followed by the code-for-token exchange. -/
theorem missing_refresh_token_falls_back_witness :
    truthy (mkTokenManager exCreds).refresh_token = false ∧
    (refresh_token_op exNet exDecode true
        { mkTokenManager exCreds with client := some ClientStatus.opened }).1 =
      Except.ok () :=
  ⟨rfl, (missing_refresh_token_falls_back exNet exDecode true
      { mkTokenManager exCreds with client := some ClientStatus.opened }
      rfl).2 "code" ⟨some "h.p.s", some "r"⟩ rfl rfl rfl rfl⟩

@[simp]
theorem netEvents_nil : netEvents [] = [] := rfl

@[simp]
theorem netEvents_cons_net (c : NetCall) (es : List Event) :
    netEvents (Event.net c :: es) = c :: netEvents es := rfl

@[simp]
theorem netEvents_cons_mutate (b : Bool) (es : List Event) :
    netEvents (Event.mutate b :: es) = netEvents es := rfl

@[simp]
theorem netEvents_append (l1 l2 : List Event) :
    netEvents (l1 ++ l2) = netEvents l1 ++ netEvents l2 := by
  induction l1 with
  | nil => rfl
  | cons e es ih => cases e <;> simp [ih]

/-- With an open client, any path through `_refresh_token` performs at least
one network round trip (the refresh POST, or the authorize POST of the
fallback flow), even when that round trip fails. -/
theorem refresh_token_op_hits_network (net : Net) (decode : String → Option ℤ)
    (locked : Bool) (s : TokenManager)
    (hc : s.client = some ClientStatus.opened) :
    netEvents (refresh_token_op net decode locked s).2.2 ≠ [] := by
  unfold refresh_token_op obtain_token get_authorization_code
    get_access_token postCall
  cases hr : (!truthy s.refresh_token) with
  | true =>
    cases ha : net.authorizeRes with
    | error e => simp [hr, hc, ha]
    | ok c =>
      cases hcode : c.data.isEmpty with
      | true => simp [hr, hc, ha, hcode]
      | false =>
        cases ht : net.tokenRes with
        | error e => simp [hr, hc, ha, hcode, ht]
        | ok d => simp [hr, hc, ha, hcode, ht]
  | false =>
    cases ht : net.refreshRes with
    | error e => simp [hr, hc, ht]
    | ok d => simp [hr, hc, ht]

/-- Claim C1: with an open client, `get_valid_token` performs no network call
and returns the stored token (state unchanged) exactly when a truthy access
token is stored and its known expiration `E` satisfies
`E - now > 15 minutes`; in every other case — expiration unknown, token
missing, or `E - now ≤ 15 minutes` — the call goes to the network (the refresh
attempt performs at least one round trip). -/
theorem get_valid_token_refresh_iff (net : Net) (decode : String → Option ℤ)
    (now : ℤ) (s : TokenManager)
    (hc : s.client = some ClientStatus.opened) :
    (netEvents (get_valid_token net decode now s).2.2 = [] ↔
      truthy s.access_token = true ∧
        ∃ E, s.token_expiration = some E ∧
          TOKEN_REFRESH_THRESHOLD_MINUTES * 60 < E - now) ∧
    (netEvents (get_valid_token net decode now s).2.2 = [] →
      get_valid_token net decode now s =
        (Except.ok (s.access_token.getD ""), s, [])) := by
  cases hcond : (truthy s.access_token && !is_token_expiring_soon s now) with
  | true =>
    have hand := hcond
    rw [Bool.and_eq_true] at hand
    obtain ⟨h1, h2⟩ := hand
    rw [Bool.not_eq_true'] at h2
    have hgvt : get_valid_token net decode now s =
        (Except.ok (s.access_token.getD ""), s, []) := by
      unfold get_valid_token
      rw [hcond]
      simp
    rw [hgvt]
    refine ⟨?_, fun _ => rfl⟩
    simp only [netEvents_nil, true_iff]
    refine ⟨h1, ?_⟩
    unfold is_token_expiring_soon at h2
    cases hexp : s.token_expiration with
    | none => rw [hexp] at h2; simp at h2
    | some E =>
      rw [hexp] at h2
      simp only [decide_eq_false_iff_not, not_le] at h2
      exact ⟨E, rfl, h2⟩
  | false =>
    have key : netEvents (get_valid_token net decode now s).2.2 ≠ [] := by
      have hnet := refresh_token_op_hits_network net decode true s hc
      unfold get_valid_token
      rw [hcond]
      simp only [Bool.false_eq_true, if_false]
      rcases hop : refresh_token_op net decode true s with ⟨r, s1, ev⟩
      rw [hop] at hnet
      cases r with
      | error e => exact hnet
      | ok u =>
        cases hb : (!truthy s1.access_token) with
        | true => simp only [hb, if_true]; exact hnet
        | false => simp only [hb, Bool.false_eq_true, if_false]; exact hnet
    refine ⟨⟨fun h => absurd h key, ?_⟩, fun h => absurd h key⟩
    rintro ⟨h1, E, h2, h3⟩
    have hexp : is_token_expiring_soon s now = false := by
      unfold is_token_expiring_soon
      rw [h2]
      simp only [decide_eq_false_iff_not, not_le]
      exact h3
    rw [h1, hexp] at hcond
    simp at hcond

/-- Witness for C1: on a live manager holding token `tok` expiring at `2000`
and current time `0` (remaining lifetime well above the threshold),
`get_valid_token` makes no network call and returns the stored token. -/
theorem get_valid_token_refresh_iff_witness :
    exLive.client = some ClientStatus.opened ∧
    netEvents (get_valid_token exNet exDecode 0 exLive).2.2 = [] ∧
    get_valid_token exNet exDecode 0 exLive = (Except.ok "tok", exLive, []) := by
  have h := get_valid_token_refresh_iff exNet exDecode 0 exLive rfl
  have hnil : netEvents (get_valid_token exNet exDecode 0 exLive).2.2 = [] :=
    h.1.mpr ⟨rfl, 2000, rfl, by norm_num [TOKEN_REFRESH_THRESHOLD_MINUTES]⟩
  exact ⟨rfl, hnil, h.2 hnil⟩


/-- The trace of `_parse_token_expiration` is empty or a single lock-tagged
write; in particular it never touches the network. -/
theorem parse_token_expiration_events (decode : String → Option ℤ)
    (locked : Bool) (token : Option String) (s : TokenManager) :
    (parse_token_expiration decode locked token s).2 = [] ∨
    (parse_token_expiration decode locked token s).2 = [Event.mutate locked] := by
  unfold parse_token_expiration
  cases ht : (!truthy token) with
  | true => simp [ht]
  | false =>
    simp only [ht, Bool.false_eq_true, if_false]
    split
    · exact Or.inl rfl
    · split
      · exact Or.inl rfl
      · exact Or.inr rfl

/-- `_parse_token_expiration` performs no network call. -/
theorem netEvents_parse_token_expiration (decode : String → Option ℤ)
    (locked : Bool) (token : Option String) (s : TokenManager) :
    netEvents (parse_token_expiration decode locked token s).2 = [] := by
  rcases parse_token_expiration_events decode locked token s with h | h <;>
    rw [h] <;> rfl

/-- Claim C7: with an open client, `refresh_immediately` performs a token
exchange whatever the stored expiration is (the expiration never appears in
its control flow): holding a refresh token it performs exactly the one refresh
round trip; holding none it falls back to the authorize round trip followed by
exactly one code-for-token exchange (given a non-empty code).  Either way
exactly one token-endpoint exchange happens, and the outcome — success or the
exchange's error — is propagated verbatim to the caller. -/
theorem refresh_immediately_one_exchange (net : Net)
    (decode : String → Option ℤ) (s : TokenManager)
    (hc : s.client = some ClientStatus.opened) :
    (truthy s.refresh_token = true →
      netEvents (refresh_immediately net decode s).2.2 = [NetCall.refresh] ∧
      exchangeCount (refresh_immediately net decode s).2.2 = 1 ∧
      (refresh_immediately net decode s).1 =
        Except.map (fun _ => ()) net.refreshRes) ∧
    (truthy s.refresh_token = false → ∀ c, net.authorizeRes = Except.ok c →
      c.data.isEmpty = false →
      netEvents (refresh_immediately net decode s).2.2 =
        [NetCall.authorize, NetCall.token] ∧
      exchangeCount (refresh_immediately net decode s).2.2 = 1 ∧
      (refresh_immediately net decode s).1 =
        Except.map (fun _ => ()) net.tokenRes) := by
  constructor
  · intro hr
    cases ht : net.refreshRes with
    | error e =>
      unfold refresh_immediately refresh_token_op postCall
      simp [hr, hc, ht, exchangeCount, isExchange, Except.map]
    | ok d =>
      unfold refresh_immediately refresh_token_op postCall
      simp [hr, hc, ht, exchangeCount, isExchange, Except.map,
        netEvents_parse_token_expiration]
  · intro hr c ha hcode
    cases ht : net.tokenRes with
    | error e =>
      unfold refresh_immediately refresh_token_op obtain_token
        get_authorization_code get_access_token postCall
      simp [hr, hc, ha, hcode, ht, exchangeCount, isExchange, Except.map]
    | ok d =>
      unfold refresh_immediately refresh_token_op obtain_token
        get_authorization_code get_access_token postCall
      simp [hr, hc, ha, hcode, ht, exchangeCount, isExchange, Except.map,
        netEvents_parse_token_expiration]

/-- Witness for C7: on the live manager (fresh token, refresh token held),
`refresh_immediately` still performs exactly the one refresh exchange and
succeeds. -/
theorem refresh_immediately_one_exchange_witness :
    truthy exLive.refresh_token = true ∧
    netEvents (refresh_immediately exNet exDecode exLive).2.2 =
      [NetCall.refresh] ∧
    exchangeCount (refresh_immediately exNet exDecode exLive).2.2 = 1 ∧
    (refresh_immediately exNet exDecode exLive).1 = Except.ok () := by
  have h := (refresh_immediately_one_exchange exNet exDecode exLive rfl).1 rfl
  exact ⟨rfl, h.1, h.2.1, by rw [h.2.2]; rfl⟩

/-- Claim C8: if the authorize call fails (for example with HTTP 500),
`initialize` propagates exactly that error after the single authorize round
trip (no retry, no token exchange), and the manager still has no token pair
and no background task — only the HTTP client was opened before the failure. -/
theorem init_authorize_error_keeps_uninitialized (net : Net)
    (decode : String → Option ℤ) (creds : Credentials) (e : Err)
    (ha : net.authorizeRes = Except.error e) :
    (initTokenManager net decode (mkTokenManager creds)).1 = Except.error e ∧
    (initTokenManager net decode (mkTokenManager creds)).2.1.access_token
      = none ∧
    (initTokenManager net decode (mkTokenManager creds)).2.1.refresh_token
      = none ∧
    (initTokenManager net decode (mkTokenManager creds)).2.1.token_expiration
      = none ∧
    (initTokenManager net decode (mkTokenManager creds)).2.1.refresh_task
      = none ∧
    netEvents (initTokenManager net decode (mkTokenManager creds)).2.2 =
      [NetCall.authorize] := by
  unfold initTokenManager obtain_token get_authorization_code postCall
    mkTokenManager
  simp [ha]

/-- Witness for C8: concretely, an authorize endpoint answering HTTP 500 makes
`initialize` fail with that status on a freshly constructed manager, which
keeps no token pair and no background task. -/
theorem init_authorize_error_keeps_uninitialized_witness :
    (initTokenManager exNetFail exDecode (mkTokenManager exCreds)).1 =
      Except.error (Err.status 500) ∧
    (initTokenManager exNetFail exDecode
      (mkTokenManager exCreds)).2.1.access_token = none ∧
    (initTokenManager exNetFail exDecode
      (mkTokenManager exCreds)).2.1.refresh_task = none :=
  ⟨(init_authorize_error_keeps_uninitialized exNetFail exDecode exCreds
      (Err.status 500) rfl).1,
   (init_authorize_error_keeps_uninitialized exNetFail exDecode exCreds
      (Err.status 500) rfl).2.1,
   (init_authorize_error_keeps_uninitialized exNetFail exDecode exCreds
      (Err.status 500) rfl).2.2.2.2.1⟩

/-- With a missing or closed client, any path through `_refresh_token` raises
before any I/O — deterministically the missing-client or closed-client error:
no network event, state unchanged. -/
theorem refresh_token_op_unusable_client (net : Net)
    (decode : String → Option ℤ) (locked : Bool) (s : TokenManager)
    (hc : s.client = none ∨ s.client = some ClientStatus.closed) :
    ∃ e, (e = Err.noClient ∨ e = Err.closedClient) ∧
      refresh_token_op net decode locked s = (Except.error e, s, []) := by
  unfold refresh_token_op obtain_token get_authorization_code postCall
  cases hr : (!truthy s.refresh_token) with
  | true =>
    rcases hc with hc | hc
    · exact ⟨Err.noClient, Or.inl rfl, by simp [hr, hc]⟩
    · exact ⟨Err.closedClient, Or.inr rfl, by simp [hr, hc]⟩
  | false =>
    rcases hc with hc | hc
    · exact ⟨Err.noClient, Or.inl rfl, by simp [hr, hc]⟩
    · exact ⟨Err.closedClient, Or.inr rfl, by simp [hr, hc]⟩

/-- `shutdown` leaves the client either absent or closed. -/
theorem shutdown_client_unusable (s : TokenManager) :
    (shutdown s).1.client = none ∨
    (shutdown s).1.client = some ClientStatus.closed := by
  obtain ⟨c, a, r, x, t, cl⟩ := s
  cases t <;> cases cl <;> simp [shutdown]

/-- `shutdown` does not touch the token pair. -/
theorem shutdown_preserves_tokens (s : TokenManager) :
    (shutdown s).1.access_token = s.access_token ∧
    (shutdown s).1.refresh_token = s.refresh_token ∧
    (shutdown s).1.token_expiration = s.token_expiration := by
  obtain ⟨c, a, r, x, t, cl⟩ := s
  cases t <;> cases cl <;> exact ⟨rfl, rfl, rfl⟩

/-- Counterexample to C5 as stated: `shutdown` sets no flag, so a
`get_valid_token` call arriving after shutdown completes does NOT fail when
the stored token is still fresh — on the live manager (token `tok`, expiring
at `2000`, current time `0`) it returns the token successfully (no error, and
also no network call). -/
theorem shutdown_get_valid_token_counterexample :
    (get_valid_token exNet exDecode 0 (shutdown exLive).1).1 =
      Except.ok "tok" ∧
    netEvents (get_valid_token exNet exDecode 0 (shutdown exLive).1).2.2 =
      [] :=
  ⟨rfl, rfl⟩

/-- Claim C5 (amended): after `shutdown` completes, no operation of the
manager performs any network call — `get_valid_token`, `refresh_immediately`
and a background-loop iteration all produce an empty network trace, because
the client is closed (or absent) and posting on it raises before I/O.  A
subsequent `get_valid_token` that finds a still-fresh stored token (truthy
and not expiring soon) returns it successfully, and one that needs a refresh
(token falsy, or expiration unknown or within the threshold) fails fast and
deterministically with the closed-client or missing-client error rather than
hanging or attempting network I/O. -/
theorem shutdown_no_network_after (s : TokenManager) (net : Net)
    (decode : String → Option ℤ) (now : ℤ) :
    netEvents (get_valid_token net decode now (shutdown s).1).2.2 = [] ∧
    netEvents (refresh_immediately net decode (shutdown s).1).2.2 = [] ∧
    netEvents (refresh_loop_iter net decode now (shutdown s).1).2 = [] ∧
    ((truthy (shutdown s).1.access_token &&
        !is_token_expiring_soon (shutdown s).1 now) = true →
      (get_valid_token net decode now (shutdown s).1).1 =
        Except.ok (s.access_token.getD "")) ∧
    ((truthy (shutdown s).1.access_token &&
        !is_token_expiring_soon (shutdown s).1 now) = false →
      ∃ e, (e = Err.noClient ∨ e = Err.closedClient) ∧
        (get_valid_token net decode now (shutdown s).1).1 =
          Except.error e) := by
  have hcl := shutdown_client_unusable s
  obtain ⟨er, her, hop⟩ :=
    refresh_token_op_unusable_client net decode true (shutdown s).1 hcl
  have himm : refresh_immediately net decode (shutdown s).1 =
      (Except.error er, (shutdown s).1, []) := by
    unfold refresh_immediately
    exact hop
  have hloop : netEvents (refresh_loop_iter net decode now (shutdown s).1).2
      = [] := by
    unfold refresh_loop_iter
    cases hexp : is_token_expiring_soon (shutdown s).1 now with
    | true => simp [hexp, hop]
    | false => simp [hexp]
  cases hcond : (truthy (shutdown s).1.access_token &&
      !is_token_expiring_soon (shutdown s).1 now) with
  | true =>
    have hgvt : get_valid_token net decode now (shutdown s).1 =
        (Except.ok ((shutdown s).1.access_token.getD ""),
          (shutdown s).1, []) := by
      unfold get_valid_token
      rw [hcond]
      simp
    refine ⟨?_, ?_, hloop, ?_, ?_⟩
    · rw [hgvt]
      rfl
    · rw [himm]
      rfl
    · intro _
      rw [hgvt, (shutdown_preserves_tokens s).1]
    · intro hfalse
      simp at hfalse
  | false =>
    have hgvt : get_valid_token net decode now (shutdown s).1 =
        (Except.error er, (shutdown s).1, []) := by
      unfold get_valid_token
      rw [hcond]
      simp only [Bool.false_eq_true, if_false]
      rw [hop]
    refine ⟨?_, ?_, hloop, ?_, ?_⟩
    · rw [hgvt]
      rfl
    · rw [himm]
      rfl
    · intro htrue
      simp at htrue
    · intro _
      exact ⟨er, her, by rw [hgvt]⟩

/-- Witness for C5 (amended): concretely, after `shutdown` a still-fresh
manager (token `tok` expiring at `2000`, time `0`) has its token returned
successfully, while an expiring-soon manager (expiring at `100`, time `0`)
fails fast with the deterministic closed-client error. -/
theorem shutdown_no_network_after_witness :
    (get_valid_token exNet exDecode 0 (shutdown exLive).1).1 =
      Except.ok "tok" ∧
    ∃ e, (e = Err.noClient ∨ e = Err.closedClient) ∧
      (get_valid_token exNet exDecode 0 (shutdown exExpiring).1).1 =
        Except.error e := by
  constructor
  · have hcT : (truthy (shutdown exLive).1.access_token &&
        !is_token_expiring_soon (shutdown exLive).1 0) = true := by decide
    exact (shutdown_no_network_after exLive exNet exDecode 0).2.2.2.1 hcT
  · have hcF : (truthy (shutdown exExpiring).1.access_token &&
        !is_token_expiring_soon (shutdown exExpiring).1 0) = false := by decide
    exact (shutdown_no_network_after exExpiring exNet exDecode 0).2.2.2.2 hcF

/-- A manager that has just stored a malformed access token (`abc` has one
dot-separated segment, not three) while a stale expiration instant from the
previously held token is still recorded. -/
def exStale : TokenManager :=
  { mkTokenManager exCreds with
      access_token := some "abc"
      refresh_token := some "r0"
      token_expiration := some 2000
      client := some ClientStatus.opened }

/-- When `get_valid_token` takes the refresh path (stored token falsy or
expiring soon), its trace is exactly the refresh attempt's trace. -/
theorem get_valid_token_refresh_trace (net : Net) (decode : String → Option ℤ)
    (now : ℤ) (s : TokenManager)
    (hcond : (truthy s.access_token && !is_token_expiring_soon s now)
      = false) :
    (get_valid_token net decode now s).2.2 =
      (refresh_token_op net decode true s).2.2 := by
  unfold get_valid_token
  rw [hcond]
  simp only [Bool.false_eq_true, if_false]
  rcases hop : refresh_token_op net decode true s with ⟨r, s1, ev⟩
  cases r with
  | error e => rfl
  | ok u =>
    cases hb : (!truthy s1.access_token) with
    | true => simp [hb]
    | false => simp [hb]

/-- Counterexample to C4 as stated: `_parse_token_expiration` on a malformed
token does not clear the previously stored expiration.  On `exStale` (stored
malformed token `abc`, stale expiration `2000` left over from the previous
token, current time `0`), the parse leaves the expiration at `2000` — not
unset — and the subsequent `get_valid_token` trusts that stale instant: it
performs NO refresh and returns the malformed token. -/
theorem parse_malformed_counterexample :
    ("abc".data.splitOn '.').length ≠ 3 ∧
    (parse_token_expiration exDecode true (some "abc")
        exStale).1.token_expiration = some 2000 ∧
    get_valid_token exNet exDecode 0 exStale = (Except.ok "abc", exStale, []) :=
  ⟨by decide, rfl, rfl⟩

/-- Claim C4 (amended): for every token string without exactly three
dot-separated segments, `_parse_token_expiration` does not raise and leaves
the manager state exactly unchanged (so an expiration that was unset stays
unset, but a previously recorded instant also survives).  When the
expiration is indeed unset, a subsequent `get_valid_token` treats the token
as expiring-soon: with an open client it performs a refresh (at least one
network round trip). -/
theorem parse_malformed_unchanged (decode : String → Option ℤ) (locked : Bool)
    (str : String) (s : TokenManager)
    (hm : (str.data.splitOn '.').length ≠ 3) :
    parse_token_expiration decode locked (some str) s = (s, []) ∧
    (s.token_expiration = none → s.client = some ClientStatus.opened →
      ∀ net now, netEvents (get_valid_token net decode now s).2.2 ≠ []) := by
  constructor
  · unfold parse_token_expiration
    cases ht : (!truthy (some str)) with
    | true => simp [ht]
    | false =>
      simp only [ht, Bool.false_eq_true, if_false, Option.getD_some]
      rw [if_pos hm]
  · intro hexp hc net now
    have hcond : (truthy s.access_token && !is_token_expiring_soon s now)
        = false := by
      have : is_token_expiring_soon s now = true := by
        unfold is_token_expiring_soon
        rw [hexp]
      rw [this]
      simp
    rw [get_valid_token_refresh_trace net decode now s hcond]
    exact refresh_token_op_hits_network net decode true s hc

/-- Witness for C4 (amended): the malformed token `zz` leaves a freshly
constructed manager (expiration unset) unchanged, and `get_valid_token` on
that manager goes to the network. -/
theorem parse_malformed_unchanged_witness :
    ("zz".data.splitOn '.').length ≠ 3 ∧
    parse_token_expiration exDecode true (some "zz")
        { mkTokenManager exCreds with client := some ClientStatus.opened } =
      ({ mkTokenManager exCreds with client := some ClientStatus.opened },
        []) ∧
    netEvents (get_valid_token exNet exDecode 0
        { mkTokenManager exCreds with
            client := some ClientStatus.opened }).2.2 ≠ [] := by
  have h := parse_malformed_unchanged exDecode true "zz"
    { mkTokenManager exCreds with client := some ClientStatus.opened }
    (by decide)
  exact ⟨by decide, h.1, h.2 rfl rfl exNet 0⟩

@[simp]
theorem mutatesOnlyWith_append (L : Bool) (l1 l2 : List Event) :
    mutatesOnlyWith L (l1 ++ l2) =
      (mutatesOnlyWith L l1 && mutatesOnlyWith L l2) := by
  simp [mutatesOnlyWith]

/-- `_parse_token_expiration` only ever writes with the lock status it was
invoked under. -/
theorem parse_token_expiration_mutates_locked (decode : String → Option ℤ)
    (L : Bool) (token : Option String) (s : TokenManager) :
    mutatesOnlyWith L (parse_token_expiration decode L token s).2 = true := by
  rcases parse_token_expiration_events decode L token s with h | h <;>
    simp [h, mutatesOnlyWith]

/-- `_get_access_token` only ever writes with the lock status it was invoked
under. -/
theorem get_access_token_mutates_locked (net : Net)
    (decode : String → Option ℤ) (L : Bool) (s : TokenManager) :
    mutatesOnlyWith L (get_access_token net decode L s).2.2 = true := by
  unfold get_access_token postCall
  cases hc : s.client with
  | none => simp [mutatesOnlyWith]
  | some st =>
    cases st with
    | closed => simp [mutatesOnlyWith]
    | opened =>
      cases ht : net.tokenRes with
      | error e => simp [mutatesOnlyWith]
      | ok d =>
        rcases parse_token_expiration_events decode L d.access_token
            { s with access_token := d.access_token,
                     refresh_token := d.refresh_token } with h | h <;>
          rw [hc] at h <;> simp [h, mutatesOnlyWith]

/-- `_obtain_token` only ever writes with the lock status it was invoked
under. -/
theorem obtain_token_mutates_locked (net : Net) (decode : String → Option ℤ)
    (L : Bool) (s : TokenManager) :
    mutatesOnlyWith L (obtain_token net decode L s).2.2 = true := by
  unfold obtain_token get_authorization_code postCall
  cases hc : s.client with
  | none => simp [mutatesOnlyWith]
  | some st =>
    cases st with
    | closed => simp [mutatesOnlyWith]
    | opened =>
      cases ha : net.authorizeRes with
      | error e => simp [mutatesOnlyWith]
      | ok c =>
        cases hcode : c.data.isEmpty with
        | true => simp [hcode, mutatesOnlyWith]
        | false =>
          have hg := get_access_token_mutates_locked net decode L s
          rcases hgat : get_access_token net decode L s with ⟨r, s1, ev⟩
          rw [hgat] at hg
          simp [hcode, hgat, mutatesOnlyWith] at hg ⊢
          exact hg

/-- `_refresh_token` only ever writes with the lock status it was invoked
under. -/
theorem refresh_token_op_mutates_locked (net : Net)
    (decode : String → Option ℤ) (L : Bool) (s : TokenManager) :
    mutatesOnlyWith L (refresh_token_op net decode L s).2.2 = true := by
  unfold refresh_token_op postCall
  cases hr : (!truthy s.refresh_token) with
  | true =>
    simp only [hr, if_true]
    exact obtain_token_mutates_locked net decode L s
  | false =>
    simp only [hr, Bool.false_eq_true, if_false]
    cases hc : s.client with
    | none => simp [mutatesOnlyWith]
    | some st =>
      cases st with
      | closed => simp [mutatesOnlyWith]
      | opened =>
        cases ht : net.refreshRes with
        | error e => simp [mutatesOnlyWith]
        | ok d =>
          rcases parse_token_expiration_events decode L d.access_token
              { s with access_token := d.access_token,
                       refresh_token := d.refresh_token } with h | h <;>
            rw [hc] at h <;> simp [h, mutatesOnlyWith]

/-- Counterexample to C9 as stated: the initial population performed by
`initialize` happens WITHOUT holding the manager's lock (the source takes no
`async with self._lock` on that path) — a successful startup's trace contains
a token-pair write tagged as unlocked. -/
theorem init_mutates_without_lock_counterexample :
    Event.mutate false ∈
      (initTokenManager exNet exDecode (mkTokenManager exCreds)).2.2 := by
  decide

/-- Claim C9 (amended): every token-pair write performed by
`get_valid_token`, `refresh_immediately` and a background-loop iteration
happens while the manager's lock is held; the writes of the initial
population performed by `initialize`, however, all happen WITHOUT the lock
(`initialize` is expected to run before any concurrent access). -/
theorem tokenpair_mutations_follow_lock (net : Net)
    (decode : String → Option ℤ) (now : ℤ) (s : TokenManager) :
    mutatesOnlyWith true (get_valid_token net decode now s).2.2 = true ∧
    mutatesOnlyWith true (refresh_immediately net decode s).2.2 = true ∧
    mutatesOnlyWith true (refresh_loop_iter net decode now s).2 = true ∧
    mutatesOnlyWith false (initTokenManager net decode s).2.2 = true := by
  have hop := refresh_token_op_mutates_locked net decode true s
  refine ⟨?_, hop, ?_, ?_⟩
  · cases hcond : (truthy s.access_token && !is_token_expiring_soon s now) with
    | true =>
      unfold get_valid_token
      rw [hcond]
      simp [mutatesOnlyWith]
    | false =>
      rw [get_valid_token_refresh_trace net decode now s hcond]
      exact hop
  · unfold refresh_loop_iter
    cases hexp : is_token_expiring_soon s now with
    | true => simp only [hexp, if_true]; exact hop
    | false => simp [hexp, mutatesOnlyWith]
  · unfold initTokenManager
    have ho := obtain_token_mutates_locked net decode false
      { s with client := some ClientStatus.opened }
    rcases hob : obtain_token net decode false
        { s with client := some ClientStatus.opened } with ⟨r, s1, ev⟩
    rw [hob] at ho
    cases r with
    | error e => simp only [hob]; exact ho
    | ok u => simp only [hob]; exact ho

/-- Callers that find a truthy, not-expiring-soon token return it at once:
any number of serialized `get_valid_token` calls on such a state return the
stored token and produce an empty trace. -/
theorem runCallers_fresh (net : Net) (decode : String → Option ℤ) (now : ℤ)
    (n : Nat) (s : TokenManager)
    (hacc : truthy s.access_token = true)
    (hfresh : is_token_expiring_soon s now = false) :
    runCallers net decode now n s =
      (List.replicate n (Except.ok (s.access_token.getD "")), s, []) := by
  induction n with
  | zero => rfl
  | succ k ih =>
    have hgvt : get_valid_token net decode now s =
        (Except.ok (s.access_token.getD ""), s, []) := by
      unfold get_valid_token
      rw [hacc, hfresh]
      simp
    unfold runCallers
    rw [hgvt]
    simp only []
    rw [ih]
    simp [List.replicate_succ]

/-- Claim C2: single-flight refresh.  `N = n + 1 ≥ 1` concurrent
`get_valid_token` callers, serialized by the manager's lock, arrive while the
current token is expiring-soon; the refresh exchange succeeds and answers a
well-formed token `a` whose `exp` claim is safely beyond the threshold.  Then
exactly one token-exchange network call is made across all `N` calls (the
first caller's refresh round trip is the only network event in the combined
trace), and every one of the `N` calls returns the same refreshed token `a`:
each later caller re-checks freshness only after acquiring the lock and
reuses the first caller's result. -/
theorem single_flight_refresh (net : Net) (decode : String → Option ℤ)
    (now : ℤ) (s : TokenManager) (n : Nat) (d : TokenData) (a : String)
    (E : ℤ)
    (hc : s.client = some ClientStatus.opened)
    (hr : truthy s.refresh_token = true)
    (hexp : is_token_expiring_soon s now = true)
    (hnet : net.refreshRes = Except.ok d)
    (ha : d.access_token = some a)
    (hne : a.data.isEmpty = false)
    (hparts : (a.data.splitOn '.').length = 3)
    (hdec : decode (padB64 (String.mk ((a.data.splitOn '.').getD 1 [])))
      = some E)
    (hfresh : TOKEN_REFRESH_THRESHOLD_MINUTES * 60 < E - now) :
    (runCallers net decode now (n + 1) s).1 =
      List.replicate (n + 1) (Except.ok a) ∧
    netEvents (runCallers net decode now (n + 1) s).2.2 = [NetCall.refresh] ∧
    exchangeCount (runCallers net decode now (n + 1) s).2.2 = 1 := by
  obtain ⟨da, dr⟩ := d
  simp only at ha
  subst ha
  have hgvt1 : get_valid_token net decode now s =
      (Except.ok a,
        { s with access_token := some a, refresh_token := dr,
                 token_expiration := some E,
                 client := some ClientStatus.opened },
        [Event.net NetCall.refresh, Event.mutate true, Event.mutate true]) := by
    have htra : truthy (some a) = true := by simp [truthy, hne]
    unfold get_valid_token refresh_token_op postCall parse_token_expiration
    simp [hparts] at hdec
    simp [hexp, hr, hc, hnet, htra, hparts, hdec]
  have hacc2 : truthy (some a) = true := by
    simp [truthy, hne]
  have hfresh2 : is_token_expiring_soon
      { s with access_token := some a, refresh_token := dr,
               token_expiration := some E,
               client := some ClientStatus.opened }
      now = false := by
    simp only [is_token_expiring_soon]
    simp only [decide_eq_false_iff_not, not_le]
    exact hfresh
  have hrest := runCallers_fresh net decode now n
    { s with access_token := some a, refresh_token := dr,
             token_expiration := some E,
             client := some ClientStatus.opened }
    hacc2 hfresh2
  unfold runCallers
  rw [hgvt1]
  simp only []
  rw [hrest]
  simp [List.replicate_succ, exchangeCount, isExchange]


/-- Witness for C2: three serialized callers on an expiring-soon token make
exactly one refresh round trip in total and all three receive the refreshed
token `h.q.s`. -/
theorem single_flight_refresh_witness :
    (runCallers exNet exDecode 0 3 exExpiring).1 =
      List.replicate 3 (Except.ok "h.q.s") ∧
    netEvents (runCallers exNet exDecode 0 3 exExpiring).2.2 =
      [NetCall.refresh] ∧
    exchangeCount (runCallers exNet exDecode 0 3 exExpiring).2.2 = 1 := by
  exact single_flight_refresh exNet exDecode 0 exExpiring 2
    ⟨some "h.q.s", some "r2"⟩ "h.q.s" 5000 rfl (by decide) (by decide) rfl rfl
    (by decide) (by decide) rfl (by decide)
